import Mathlib

/-!
Verification of the federation-session issuance and revocation engine
(`backend/lambda/marketplace/redirect.ts`).

The TypeScript source is shallowly embedded: every external effect
(STS assume-role, the signing-endpoint POST, the S3 config read, the
DynamoDB table, the IAM policy write, the Cognito sign-out) is passed in
explicitly as data or as an oracle function, and each operation returns
its result together with the list of external calls it performed, so
that ordering and "was this call attempted" properties can be stated.
Times are epoch numbers (`Nat`, milliseconds or seconds as in the
source); machine strings are Lean `String`s.
-/

namespace MarketplaceFed

/-! ## Endpoint allowlist validator (redirect.ts lines 22-43) -/

/-- The allowlisted signing endpoint, `ALLOWED_ENDPOINTS.AWS_FEDERATION`
in the source. -/
def AWS_FEDERATION : String := "https://signin.aws.amazon.com/federation"

/-- `Object.values(ALLOWED_ENDPOINTS)` — the fixed allowlist of endpoint
strings (the source object has the single field `AWS_FEDERATION`). -/
def ALLOWED_ENDPOINTS : List String := [AWS_FEDERATION]

/-- Result of the WHATWG `new URL(...)` constructor, restricted to the
field the source reads: `protocol` is the lowercased scheme followed by
a colon (e.g. `"https:"`); `rest` is the remainder of the input after
the scheme colon. -/
structure ParsedURL where
  protocol : String
  rest : String
deriving DecidableEq

/-- Characters the WHATWG URL grammar allows in a scheme after its first
character: ASCII alphanumerics and `+`, `-`, `.`. -/
def isSchemeChar (c : Char) : Bool :=
  c.isAlphanum || c = '+' || c = '-' || c = '.'

/-- Scans for the scheme-terminating colon, accumulating scheme
characters; fails when a non-scheme character appears before any colon
or the string ends without one. -/
def splitSchemeAux : List Char → List Char → Option (List Char × List Char)
  | _, [] => none
  | acc, c :: cs =>
    if c = ':' then some (acc.reverse, cs)
    else if isSchemeChar c then splitSchemeAux (c :: acc) cs
    else none

/-- Models the `new URL(url)` call in `validateEndpoint`: the constructor
throws (here: `none`) unless the string begins with a valid
`scheme:` head (first character a letter, then scheme characters up to a
colon); the scheme is reported lowercased with a trailing colon as
`protocol`. -/
def parseURL (url : String) : Option ParsedURL :=
  match url.toList with
  | [] => none
  | c :: cs =>
    if c.isAlpha then
      match splitSchemeAux [c] cs with
      | none => none
      | some (scheme, rest) =>
        some ⟨String.mk (scheme.map Char.toLower) ++ ":", String.mk rest⟩
    else none

/-- `validateEndpoint` (redirect.ts lines 28-43): parse the URL (any
parse failure gives `false`), require protocol `https:`, then require
the full input string to be a member of the allowlist. -/
def validateEndpoint (url : String) : Bool :=
  match parseURL url with
  | none => false
  | some parsedUrl =>
    if parsedUrl.protocol = "https:" then ALLOWED_ENDPOINTS.contains url
    else false

/-! ## External-call events

Each embedded operation returns, besides its result, the list of
external calls it performed, in order. -/

/-- One outbound call made by the Lambda. -/
inductive Event where
  | assumeRole
  | federationPost (endpoint : String)
  | ddbGet (key : String)
  | ddbPut (key : String)
  | ddbDelete (key : String)
  | iamPutRolePolicy (roleName : String)
  | cognitoSignOut
deriving DecidableEq

/-! ## Session cache model (DynamoDB table, redirect.ts lines 51-58 and 396-478) -/

/-- A row of the presigned-URLs table (interface `StoredUrlItem`, plus
the `productType` attribute the source writes in `generateFederationUrl`). -/
structure StoredUrlItem where
  userId : String
  federationUrl : String
  expirationTime : Nat
  username : String
  productType : String
  createdAt : String
  lastAccessed : String
deriving DecidableEq

/-- The DynamoDB table, as an association list keyed by `userId` (the
composite key). Reads see the most recent write for a key. -/
abbrev Store := List (String × StoredUrlItem)

/-- `GetCommand`: the value most recently put for the key, if any. -/
def Store.get (s : Store) (k : String) : Option StoredUrlItem :=
  match s with
  | [] => none
  | (k', v) :: rest => if k' = k then some v else Store.get rest k

/-- `PutCommand`: unconditional upsert (later entries shadow older ones). -/
def Store.put (s : Store) (k : String) (v : StoredUrlItem) : Store :=
  (k, v) :: s

/-- `DeleteCommand`: remove every entry under the key. -/
def Store.del (s : Store) (k : String) : Store :=
  s.filter (fun p => p.1 != k)

/-- `invalidateUrl` (redirect.ts lines 396-410): unconditional delete of
the composite key. -/
def invalidateUrl (store : Store) (userId : String) : Store × List Event :=
  (Store.del store userId, [Event.ddbDelete userId])

/-- Result of `getStoredUrl`: the item handed back to the caller, the
table after the call, and the calls performed. -/
structure CacheReadOutcome where
  item : Option StoredUrlItem
  store : Store
  events : List Event
deriving DecidableEq

/-- `getStoredUrl` (redirect.ts lines 442-478): read the key; absent
gives `none`; an entry with `expirationTime < now` (epoch seconds) is
deleted via `invalidateUrl` and `none` is returned on this same call;
otherwise the stored row's `lastAccessed` is rewritten and the item
returned. -/
def getStoredUrl (store : Store) (now : Nat) (nowIso : String) (userId : String) :
    CacheReadOutcome :=
  match Store.get store userId with
  | none => ⟨none, store, [Event.ddbGet userId]⟩
  | some item =>
    if item.expirationTime < now then
      let inv := invalidateUrl store userId
      ⟨none, inv.1, Event.ddbGet userId :: inv.2⟩
    else
      ⟨some item,
        Store.put store userId { item with lastAccessed := nowIso },
        [Event.ddbGet userId, Event.ddbPut userId]⟩

/-- The fixed known-product-key list swept by `invalidateAllUserUrls`
(redirect.ts lines 416-419). -/
def productTypesList : List String :=
  ["gitlab", "okta", "newrelic", "sisense", "crowdstrike",
   "trend", "wiz", "teradata", "ibm", "jenkins", "redhat", "grafana"]

/-- `invalidateAllUserUrls` (redirect.ts lines 413-439): issue a delete
for `baseUserId#productType` for every known product key; each delete's
rejection is caught and swallowed (`deleteFails` says which deletes the
store rejects — a rejected delete leaves the table unchanged), so the
function always resolves to `true`. -/
def invalidateAllUserUrls (deleteFails : String → Bool) (store : Store)
    (baseUserId : String) : Bool × Store × List Event :=
  let keys := productTypesList.map (fun productType => baseUserId ++ "#" ++ productType)
  (true,
   keys.foldl (fun s k => if deleteFails k then s else Store.del s k) store,
   keys.map Event.ddbDelete)

/-! ## Product catalog resolver (redirect.ts lines 107-171) -/

/-- One catalog entry: `{id, name, vendor}`. -/
structure ProductRecord where
  id : String
  name : String
  vendor : String
deriving DecidableEq

/-- The parsed `config.products` mapping from the S3 object. -/
abbrev ProductConfig := List (String × ProductRecord)

/-- `productConfig[productType]` — lookup of a product key. -/
def lookupProduct (cfg : ProductConfig) (key : String) : Option ProductRecord :=
  match cfg with
  | [] => none
  | (k, record) :: rest => if k = key then some record else lookupProduct rest key

/-- The module-level mutable pair `productConfigCache` /
`configCacheTime` (redirect.ts lines 115-117). -/
structure ConfigCache where
  cache : Option ProductConfig
  time : Nat
deriving DecidableEq

/-- `CONFIG_CACHE_TTL` — 5 minutes in milliseconds. -/
def CONFIG_CACHE_TTL : Nat := 300000

/-- Result of `loadProductConfig`: the value returned or error thrown,
the cache state afterwards, and whether an S3 read was attempted. -/
structure LoadResult where
  result : Except String ProductConfig
  state : ConfigCache
  s3Read : Bool

/-- `loadProductConfig` (redirect.ts lines 130-171): a warm cache within
TTL is returned without a store read; otherwise S3 is read (`s3 = none`
models any failure of the read/parse path); a failed read falls back to
any previously cached value, and throws only when the cache is cold. -/
def loadProductConfig (st : ConfigCache) (now : Nat) (s3 : Option ProductConfig) :
    LoadResult :=
  match st.cache with
  | some cached =>
    if now - st.time < CONFIG_CACHE_TTL then ⟨Except.ok cached, st, false⟩
    else
      match s3 with
      | some config => ⟨Except.ok config, ⟨some config, now⟩, true⟩
      | none => ⟨Except.ok cached, st, true⟩
  | none =>
    match s3 with
    | some config => ⟨Except.ok config, ⟨some config, now⟩, true⟩
    | none =>
      ⟨Except.error "Failed to load product configuration and no cache available", st, true⟩

/-! ## `URLSearchParams` serialization (application/x-www-form-urlencoded) -/

/-- Upper-case hex digit of a nibble. -/
def hexUpperDigit (n : Nat) : Char :=
  if n < 10 then Char.ofNat (48 + n) else Char.ofNat (55 + n)

/-- UTF-8 bytes of one character. -/
def utf8Bytes (c : Char) : List Nat :=
  let n := c.toNat
  if n < 128 then [n]
  else if n < 2048 then [192 + n / 64, 128 + n % 64]
  else if n < 65536 then [224 + n / 4096, 128 + n / 64 % 64, 128 + n % 64]
  else [240 + n / 262144, 128 + n / 4096 % 64, 128 + n / 64 % 64, 128 + n % 64]

/-- Characters form-urlencoding leaves unescaped. -/
def isFormSafe (c : Char) : Bool :=
  c.isAlphanum || c = '*' || c = '-' || c = '.' || c = '_'

/-- Encoding of one character: safe characters pass, space becomes `+`,
everything else is percent-escaped per UTF-8 byte. -/
def encodeFormChar (c : Char) : List Char :=
  if isFormSafe c then [c]
  else if c = ' ' then ['+']
  else (utf8Bytes c).foldr
    (fun b acc => '%' :: hexUpperDigit (b / 16) :: hexUpperDigit (b % 16) :: acc) []

/-- Form-urlencoding of a string. -/
def formUrlEncode (s : String) : String :=
  String.mk (s.toList.foldr (fun c acc => encodeFormChar c ++ acc) [])

/-- `new URLSearchParams(pairs).toString()`. -/
def urlSearchParamsToString (params : List (String × String)) : String :=
  String.intercalate "&" (params.map (fun p => formUrlEncode p.1 ++ "=" ++ formUrlEncode p.2))

/-! ## Federation artifact minter (redirect.ts lines 207-277 and 332-394) -/

/-- The delegated credentials STS returns. -/
structure Credentials where
  accessKeyId : String
  secretAccessKey : String
  sessionToken : String
deriving DecidableEq

/-- `JSON.stringify` of the session descriptor built in
`getFederationToken` (for credential strings free of characters JSON
must escape, which AWS key material is). -/
def sessionJson (credentials : Credentials) : String :=
  "\x7b\x22sessionId\x22:\x22" ++ credentials.accessKeyId ++
  "\x22,\x22sessionKey\x22:\x22" ++ credentials.secretAccessKey ++
  "\x22,\x22sessionToken\x22:\x22" ++ credentials.sessionToken ++ "\x22\x7d"

/-- What the source reads off the signing endpoint's HTTP response:
`ok`, `statusText`, and the `SigninToken` field of the JSON body (absent
models a malformed body). -/
structure FetchResult where
  ok : Bool
  statusText : String
  signinToken : Option String
deriving DecidableEq

/-- The form body POSTed to the signing endpoint. -/
def awsFederationBody (sessionData : String) : String :=
  urlSearchParamsToString [("Action", "getSigninToken"), ("Session", sessionData)]

/-- `makeAwsFederationRequest` (redirect.ts lines 208-226): validate the
constant endpoint against the allowlist — throwing the SSRF-protection
error if validation fails — then POST the form body to that constant.
`fetchOracle` maps (endpoint, body) to the network's response. -/
def makeAwsFederationRequest (fetchOracle : String → String → FetchResult)
    (sessionData : String) : Except String FetchResult × List Event :=
  if validateEndpoint AWS_FEDERATION then
    (Except.ok (fetchOracle AWS_FEDERATION (awsFederationBody sessionData)),
     [Event.federationPost AWS_FEDERATION])
  else (Except.error "Invalid endpoint - SSRF protection", [])

/-- `getFederationToken` (redirect.ts lines 229-253): serialize the
credentials, POST them, fail on a non-2xx response or a missing
`SigninToken` field, otherwise return the token. -/
def getFederationToken (fetchOracle : String → String → FetchResult)
    (credentials : Credentials) : Except String String × List Event :=
  let req := makeAwsFederationRequest fetchOracle (sessionJson credentials)
  match req.1 with
  | Except.error e => (Except.error e, req.2)
  | Except.ok response =>
    if !response.ok then
      (Except.error ("Federation request failed: " ++ response.statusText), req.2)
    else
      match response.signinToken with
      | none => (Except.error "No signin token received", req.2)
      | some t => (Except.ok t, req.2)

/-- `createFederationUrl` (redirect.ts lines 256-277): load the product
config, fail when the product key is absent (or has a falsy id), and
otherwise compose the redirect URL on the signing endpoint base with
`Action`, `Destination` (the marketplace deep link), `SigninToken` and
`Issuer` as query parameters. -/
def createFederationUrl (cfgSt : ConfigCache) (nowMs : Nat) (s3 : Option ProductConfig)
    (signinToken productType issuer : String) : Except String String × ConfigCache :=
  let lr := loadProductConfig cfgSt nowMs s3
  match lr.result with
  | Except.error e => (Except.error e, lr.state)
  | Except.ok productConfig =>
    match lookupProduct productConfig productType with
    | none => (Except.error ("Product configuration not found for: " ++ productType), lr.state)
    | some product =>
      if product.id = "" then
        (Except.error ("Product configuration not found for: " ++ productType), lr.state)
      else
        let marketplaceUrl := "https://aws.amazon.com/marketplace/pp/" ++ product.id
        (Except.ok ("https://signin.aws.amazon.com/federation?" ++
          urlSearchParamsToString
            [("Action", "login"), ("Destination", marketplaceUrl),
             ("SigninToken", signinToken), ("Issuer", issuer)]), lr.state)

/-- `MAX_SESSION_DURATION` — 1 hour in seconds. -/
def MAX_SESSION_DURATION : Nat := 3600

/-- The 200-response body of a GET. -/
structure FederationUrlResponse where
  federationUrl : String
  expiresAt : Nat
deriving DecidableEq

/-- All the inputs one invocation draws from its surroundings: the STS
response (`none` models a response without credentials), the signing
endpoint, the S3 config read, the IAM policy write, which DynamoDB
deletes the store rejects, the clock, and the two environment-derived
strings. -/
structure Env where
  stsCredentials : Option Credentials
  fetchOracle : String → String → FetchResult
  s3 : Option ProductConfig
  iam : Except String Unit
  deleteFails : String → Bool
  nowMs : Nat
  isoNow : String
  roleArn : String
  issuer : String

/-- Result of `generateFederationUrl`: response or thrown error, the
table and config cache afterwards, and the calls performed in order. -/
structure MintOutcome where
  result : Except String FederationUrlResponse
  store : Store
  cfgSt : ConfigCache
  events : List Event

/-- `generateFederationUrl` (redirect.ts lines 332-394): assume the
marketplace role, exchange the credentials for a signin token (this
POSTs to the signing endpoint), resolve the product and compose the URL,
then store the artifact under `userId#productType` with expiry
`now + MAX_SESSION_DURATION - 300` (epoch seconds). -/
def generateFederationUrl (env : Env) (store : Store) (cfgSt : ConfigCache)
    (userId username productType : String) : MintOutcome :=
  match env.stsCredentials with
  | none => ⟨Except.error "Failed to obtain credentials", store, cfgSt, [Event.assumeRole]⟩
  | some credentials =>
    let tok := getFederationToken env.fetchOracle credentials
    match tok.1 with
    | Except.error e => ⟨Except.error e, store, cfgSt, Event.assumeRole :: tok.2⟩
    | Except.ok signinToken =>
      let fu := createFederationUrl cfgSt env.nowMs env.s3 signinToken productType env.issuer
      match fu.1 with
      | Except.error e => ⟨Except.error e, store, fu.2, Event.assumeRole :: tok.2⟩
      | Except.ok federationUrl =>
        let expirationTime := env.nowMs / 1000 + MAX_SESSION_DURATION - 300
        let key := userId ++ "#" ++ productType
        let item : StoredUrlItem :=
          ⟨key, federationUrl, expirationTime, username, productType, env.isoNow, env.isoNow⟩
        ⟨Except.ok ⟨federationUrl, expirationTime⟩, Store.put store key item, fu.2,
          Event.assumeRole :: tok.2 ++ [Event.ddbPut key]⟩

/-! ## Substring counting (for the URL-composition properties) -/

/-- Does `pat` occur at the head of `s`? -/
def headOccur : List Char → List Char → Bool
  | [], _ => true
  | _ :: _, [] => false
  | p :: ps, c :: cs => p = c && headOccur ps cs

/-- Number of (possibly overlapping) occurrences of `pat` starting at
each position of `s`. -/
def countOccAux (pat : List Char) : List Char → Nat
  | [] => 0
  | c :: rest => (if headOccur pat (c :: rest) then 1 else 0) + countOccAux pat rest

/-- Occurrence count of `pat` as a substring of `s`. -/
def countSubstr (s pat : String) : Nat :=
  countOccAux pat.toList s.toList

/-- Does `s` start with `pre`? (list-level, kernel-evaluable) -/
def headEq (s pre : String) : Bool :=
  headOccur pre.toList s.toList

/-! ## Revocation engine and Lambda handler (redirect.ts lines 280-329 and 480-668) -/

/-- Models JS `String.endsWith`, used for the `/revoke` path check. -/
def endsWithLit (s post : String) : Bool :=
  headOccur post.toList.reverse s.toList.reverse

/-- JS `String.replace` with a string pattern and empty replacement:
deletes the first occurrence of `pat`, used to drop the `Bearer ` mark
from the Authorization header. -/
def removeFirst (s pat : String) : String :=
  match s.splitOn pat with
  | [] => s
  | [x] => x
  | x :: rest => x ++ String.intercalate pat rest

/-- JS `String.split` with a one-character separator, over character
lists. -/
def splitOnChar (sep : Char) : List Char → List (List Char)
  | [] => [[]]
  | c :: cs =>
    let r := splitOnChar sep cs
    if c = sep then [] :: r
    else
      match r with
      | [] => [[c]]
      | x :: xs => (c :: x) :: xs

/-- The role name extracted in `revokeRoleSessions`: the last
`/`-segment when the input looks like an ARN, else the input itself. -/
def extractRoleName (roleNameOrArn : String) : String :=
  if roleNameOrArn.toList.contains '/' then
    String.mk ((splitOnChar '/' roleNameOrArn.toList).getLastD [])
  else roleNameOrArn

/-- `revokeRoleSessions` (redirect.ts lines 280-329): extract the role
name (an empty one throws), then attach the deny-all
`AWSRevokeOlderSessions` policy to the role; an IAM failure is rethrown.
The fixed propagation sleep has no observable effect here. -/
def revokeRoleSessions (iam : Except String Unit) (roleNameOrArn : String) :
    Except String Unit × List Event :=
  let roleName := extractRoleName roleNameOrArn
  if roleName = "" then (Except.error "Invalid role name or ARN", [])
  else
    match iam with
    | Except.error e => (Except.error e, [Event.iamPutRolePolicy roleName])
    | Except.ok _ => (Except.ok (), [Event.iamPutRolePolicy roleName])

/-- The parts of the API Gateway event the handler reads. -/
structure ApiEvent where
  httpMethod : String
  path : String
  productParam : Option String
  sub : Option String
  username : Option String
  authHeader : Option String

/-- The JSON body of a handler response, by shape. -/
inductive ApiBody where
  | federation (response : FederationUrlResponse)
  | err (message : String) (error : Option String)
  | revoke (message : String) (revokedAt : String)
  | msg (message : String)
  | empty
deriving DecidableEq

/-- A finished invocation: status code, body, table and config cache
afterwards, and the external calls performed in order. -/
structure HandlerOutcome where
  statusCode : Nat
  body : ApiBody
  store : Store
  cfgSt : ConfigCache
  events : List Event

/-- `event.queryStringParameters?.product as ProductType || 'gitlab'`
(redirect.ts line 515): a missing or empty parameter falls back to
`"gitlab"`. -/
def extractProduct (q : Option String) : String :=
  match q with
  | none => "gitlab"
  | some s => if s = "" then "gitlab" else s

/-- GET branch (redirect.ts lines 513-547): read-through of the cache,
minting on a miss; a mint failure is a 500. -/
def handleGet (env : Env) (store : Store) (cfgSt : ConfigCache)
    (userId username productType : String) : HandlerOutcome :=
  match getStoredUrl store (env.nowMs / 1000) env.isoNow (userId ++ "#" ++ productType) with
  | ⟨some storedUrl, store2, events⟩ =>
    ⟨200, ApiBody.federation ⟨storedUrl.federationUrl, storedUrl.expirationTime⟩,
      store2, cfgSt, events⟩
  | ⟨none, store2, events⟩ =>
    match generateFederationUrl env store2 cfgSt userId username productType with
    | ⟨Except.ok urlData, store3, cfgSt3, mevents⟩ =>
      ⟨200, ApiBody.federation urlData, store3, cfgSt3, events ++ mevents⟩
    | ⟨Except.error e, store3, cfgSt3, mevents⟩ =>
      ⟨500, ApiBody.err "Failed to generate federation URL" (some e),
        store3, cfgSt3, events ++ mevents⟩

/-- The best-effort Cognito global sign-out: attempted exactly when the
Authorization header carries a nonempty token once the `Bearer ` mark is
dropped; its failure is swallowed, so only the attempt is recorded. -/
def signOutEvents (authHeader : Option String) : List Event :=
  match authHeader with
  | none => []
  | some h => if removeFirst h "Bearer " = "" then [] else [Event.cognitoSignOut]

/-- POST `/revoke` branch (redirect.ts lines 550-605): the policy write
comes first and its failure aborts the branch with a 500 — the cache
purge and sign-out run only after it succeeds. -/
def handleRevoke (env : Env) (store : Store) (cfgSt : ConfigCache)
    (userId : String) (authHeader : Option String) : HandlerOutcome :=
  let rv := revokeRoleSessions env.iam env.roleArn
  match rv.1 with
  | Except.error e =>
    ⟨500, ApiBody.err "Failed to revoke sessions" (some e), store, cfgSt, rv.2⟩
  | Except.ok _ =>
    let inv := invalidateAllUserUrls env.deleteFails store userId
    ⟨200, ApiBody.revoke "All sessions revoked successfully" env.isoNow,
      inv.2.1, cfgSt, rv.2 ++ inv.2.2 ++ signOutEvents authHeader⟩

/-- DELETE branch (redirect.ts lines 608-647): purge the caller's cached
sessions and best-effort sign out. -/
def handleDelete (env : Env) (store : Store) (cfgSt : ConfigCache)
    (userId : String) (authHeader : Option String) : HandlerOutcome :=
  let inv := invalidateAllUserUrls env.deleteFails store userId
  ⟨200, ApiBody.msg "Session terminated successfully",
    inv.2.1, cfgSt, inv.2.2 ++ signOutEvents authHeader⟩

/-- Method and path dispatch of `handler` after CORS and authorization. -/
def handlerCore (env : Env) (store : Store) (cfgSt : ConfigCache)
    (httpMethod path productType userId username : String)
    (authHeader : Option String) : HandlerOutcome :=
  if httpMethod = "GET" then
    handleGet env store cfgSt userId username productType
  else if httpMethod = "POST" ∧ endsWithLit path "/revoke" = true then
    handleRevoke env store cfgSt userId authHeader
  else if httpMethod = "DELETE" then
    handleDelete env store cfgSt userId authHeader
  else ⟨405, ApiBody.err "Method not allowed" none, store, cfgSt, []⟩

/-- `handler` (redirect.ts lines 481-668): CORS preflight, the
authorization check (a missing or empty claim gives 401), then method
dispatch with the product key defaulted. -/
def handler (env : Env) (store : Store) (cfgSt : ConfigCache) (ev : ApiEvent) :
    HandlerOutcome :=
  if ev.httpMethod = "OPTIONS" then ⟨200, ApiBody.empty, store, cfgSt, []⟩
  else
    let userId := ev.sub.getD ""
    let username := ev.username.getD ""
    if userId = "" ∨ username = "" then
      ⟨401, ApiBody.err "Unauthorized: Missing user information" none, store, cfgSt, []⟩
    else
      handlerCore env store cfgSt ev.httpMethod ev.path (extractProduct ev.productParam)
        userId username ev.authHeader

/-! ## Concrete fixtures used by witnesses and counterexamples -/

/-- Fixture row for the cache-read witness. -/
def c2item : StoredUrlItem :=
  ⟨"alice#gitlab", "https://signin.aws.amazon.com/federation?x", 100, "alice", "gitlab", "t0", "t0"⟩

/-- Fixture catalog with the single gitlab product of the spec's
scenario. -/
def gitlabConfig : ProductConfig :=
  [("gitlab", ⟨"prodview-1", "GitLab Premium Self Managed", "GitLab"⟩)]

/-- The URL minted in the spec's gitlab scenario (token `"abc"`, default
issuer, warm catalog cache). -/
def gitlabMintedUrl : String :=
  match (createFederationUrl ⟨some gitlabConfig, 0⟩ 0 none "abc" "gitlab" "YourApplication").1 with
  | Except.ok u => u
  | Except.error _ => ""

/-- Fixture environment where every collaborator succeeds: STS returns
credentials, the signing endpoint answers 2xx with token `"abc"`, the
catalog is `gitlabConfig`, IAM and DynamoDB succeed. -/
def c4env : Env :=
  ⟨some ⟨"AKID", "SECRET", "TOKEN"⟩,
   fun _ _ => ⟨true, "OK", some "abc"⟩,
   some gitlabConfig,
   Except.ok (), fun _ => false, 0, "t0",
   "arn:aws:iam::123456789012:role/marketplace", "YourApplication"⟩

/-- Fixture environment whose IAM policy write fails. -/
def c1env : Env := { c4env with iam := Except.error "iam down" }

/-- Fixture revoke request. -/
def c1ev : ApiEvent :=
  ⟨"POST", "/marketplace-url/revoke", none, some "alice", some "alice", some "Bearer tok"⟩

/-- Fixture authenticated GET request for the gitlab product. -/
def c6ev : ApiEvent :=
  ⟨"GET", "/marketplace-url", some "gitlab", some "alice", some "alice", none⟩

end MarketplaceFed

namespace MarketplaceFed

/-! ## Store lemmas -/

/-- Reading a key just put returns the value put. -/
theorem Store.get_put_self (s : Store) (k : String) (v : StoredUrlItem) :
    Store.get (Store.put s k v) k = some v := by
  simp [Store.get, Store.put]

/-- Putting one key does not disturb reads of another. -/
theorem Store.get_put_ne (s : Store) (k k' : String) (v : StoredUrlItem) (h : k ≠ k') :
    Store.get (Store.put s k v) k' = Store.get s k' := by
  simp [Store.get, Store.put, h]

/-- Reading a deleted key gives nothing. -/
theorem Store.get_del_self (s : Store) (k : String) :
    Store.get (Store.del s k) k = none := by
  induction s with
  | nil => rfl
  | cons p rest ih =>
    obtain ⟨a, b⟩ := p
    by_cases hak : a = k
    · simpa [Store.del, List.filter_cons, hak] using ih
    · simpa [Store.del, List.filter_cons, hak, Store.get] using ih

/-- Deletion never makes an absent key present. -/
theorem Store.get_del_of_none (s : Store) (k k' : String) (h : Store.get s k = none) :
    Store.get (Store.del s k') k = none := by
  induction s with
  | nil => rfl
  | cons p rest ih =>
    obtain ⟨a, b⟩ := p
    by_cases hak : a = k
    · simp [Store.get, hak] at h
    · rw [Store.get] at h
      rw [if_neg hak] at h
      by_cases hak' : a = k'
      · simpa [Store.del, List.filter_cons, hak'] using ih h
      · simpa [Store.del, List.filter_cons, hak', Store.get, hak] using ih h

/-- A fold of deletes preserves absence of a key. -/
theorem Store.get_foldl_del_of_none (keys : List String) (s : Store) (k : String)
    (h : Store.get s k = none) :
    Store.get (keys.foldl (fun st kk => Store.del st kk) s) k = none := by
  induction keys generalizing s with
  | nil => simpa using h
  | cons a ks ih => exact ih _ (Store.get_del_of_none s k a h)

/-- A fold of deletes removes every key in the list. -/
theorem Store.get_foldl_del_mem (keys : List String) (s : Store) (k : String)
    (h : k ∈ keys) :
    Store.get (keys.foldl (fun st kk => Store.del st kk) s) k = none := by
  induction keys generalizing s with
  | nil => cases h
  | cons a ks ih =>
    rcases List.mem_cons.mp h with h | h
    · subst h
      exact Store.get_foldl_del_of_none ks _ k (Store.get_del_self s k)
    · exact ih _ h

/-- C2: `getStoredUrl` returns nothing on an absent key and leaves the
table alone; a stored entry with `expirationTime < now` is deleted and
`none` returned on that same call; a still-valid entry is returned with
its stored `lastAccessed` rewritten; and no returned item is ever
expired. -/
theorem getValid_lazyExpiry (store : Store) (now e : Nat) (iso k : String)
    (item : StoredUrlItem) :
    ((getStoredUrl (Store.del store k) now iso k).item = none ∧
      (getStoredUrl (Store.del store k) now iso k).store = Store.del store k) ∧
    ((getStoredUrl (Store.put store k item) (item.expirationTime + 1 + e) iso k).item = none ∧
      Store.get (getStoredUrl (Store.put store k item)
        (item.expirationTime + 1 + e) iso k).store k = none) ∧
    ((getStoredUrl (Store.put store k item) (item.expirationTime - e) iso k).item = some item ∧
      Store.get (getStoredUrl (Store.put store k item)
        (item.expirationTime - e) iso k).store k = some { item with lastAccessed := iso }) ∧
    (∀ it, (getStoredUrl store now iso k).item = some it → ¬ it.expirationTime < now) := by
  refine ⟨?_, ?_, ?_, ?_⟩
  · simp [getStoredUrl, Store.get_del_self]
  · have hlt : item.expirationTime < item.expirationTime + 1 + e := by omega
    exact ⟨by simp [getStoredUrl, Store.get_put_self, hlt],
      by simp [getStoredUrl, Store.get_put_self, hlt, invalidateUrl, Store.get_del_self]⟩
  · have hnlt : ¬ item.expirationTime < item.expirationTime - e := by omega
    exact ⟨by simp [getStoredUrl, Store.get_put_self, hnlt],
      by simp [getStoredUrl, Store.get_put_self, hnlt]⟩
  · intro it hit
    unfold getStoredUrl at hit
    cases hg : Store.get store k with
    | none => rw [hg] at hit; simp at hit
    | some it' =>
      rw [hg] at hit
      dsimp only at hit
      by_cases hlt : it'.expirationTime < now
      · rw [if_pos hlt] at hit; simp at hit
      · rw [if_neg hlt] at hit
        simp at hit
        subst hit
        exact hlt

/-- Witness for C2: on a concrete table holding a still-valid row, the
read returns it and the returned row is not expired. -/
theorem getValid_lazyExpiry_witness :
    (getStoredUrl [("alice#gitlab", c2item)] 5 "t1" "alice#gitlab").item = some c2item ∧
    ¬ c2item.expirationTime < 5 :=
  ⟨by decide,
    (getValid_lazyExpiry [("alice#gitlab", c2item)] 5 0 "t1" "alice#gitlab" c2item).2.2.2
      c2item (by decide)⟩

/-- C7: the bulk sweep resolves `true` whatever per-key deletes fail
(failures are swallowed, never escalated — also for a table with no rows
for the subject), a delete is attempted for every known product key,
and when the store rejects no delete, every composite key of the subject
is afterwards absent, so `getStoredUrl` returns nothing for each. -/
theorem invalidateAll_bestEffort (deleteFails : String → Bool) (store : Store)
    (baseUserId : String) (now : Nat) (iso : String) :
    (invalidateAllUserUrls deleteFails store baseUserId).1 = true ∧
    (∀ p, p ∈ productTypesList →
       Event.ddbDelete (baseUserId ++ "#" ++ p) ∈
         (invalidateAllUserUrls deleteFails store baseUserId).2.2) ∧
    ((∀ k, deleteFails k = false) → ∀ p, p ∈ productTypesList →
       Store.get (invalidateAllUserUrls deleteFails store baseUserId).2.1
           (baseUserId ++ "#" ++ p) = none ∧
       (getStoredUrl (invalidateAllUserUrls deleteFails store baseUserId).2.1
           now iso (baseUserId ++ "#" ++ p)).item = none) := by
  refine ⟨rfl, ?_, ?_⟩
  · intro p hp
    exact List.mem_map_of_mem Event.ddbDelete
      (List.mem_map_of_mem (fun productType => baseUserId ++ "#" ++ productType) hp)
  · intro hf p hp
    have hget : Store.get (invalidateAllUserUrls deleteFails store baseUserId).2.1
        (baseUserId ++ "#" ++ p) = none := by
      unfold invalidateAllUserUrls
      simp only [hf, if_false, Bool.false_eq_true]
      exact Store.get_foldl_del_mem _ store _
        (List.mem_map_of_mem (fun productType => baseUserId ++ "#" ++ productType) hp)
    exact ⟨hget, by simp [getStoredUrl, hget]⟩

/-- Witness for C7: sweeping a concrete two-row table with no failing
deletes empties both of the subject's keys and a fresh read misses. -/
theorem invalidateAll_bestEffort_witness :
    Store.get (invalidateAllUserUrls (fun _ => false)
        [("alice#gitlab", c2item), ("alice#okta", c2item)] "alice").2.1 "alice#gitlab" = none ∧
    (getStoredUrl (invalidateAllUserUrls (fun _ => false)
        [("alice#gitlab", c2item), ("alice#okta", c2item)] "alice").2.1
        5 "t1" "alice#gitlab").item = none :=
  invalidateAll_bestEffort (fun _ => false)
    [("alice#gitlab", c2item), ("alice#okta", c2item)] "alice" 5 "t1"
    |>.2.2 (fun _ => rfl) "gitlab" (by decide)

/-- C3: the endpoint validator returns true iff the URL parses with
scheme exactly `https` and the string is a member of the fixed
allowlist; parse failures give false; and the four concrete probes from
the spec evaluate as stated. -/
theorem validateEndpoint_allowlist (url : String) :
    (validateEndpoint url = true ↔
      (∃ p, parseURL url = some p ∧ p.protocol = "https:") ∧ url ∈ ALLOWED_ENDPOINTS) ∧
    validateEndpoint "https://signin.aws.amazon.com/federation" = true ∧
    validateEndpoint "http://signin.aws.amazon.com/federation" = false ∧
    validateEndpoint "https://evil.example/federation" = false ∧
    validateEndpoint "not a url" = false := by
  refine ⟨?_, by decide, by decide, by decide, by decide⟩
  constructor
  · intro h
    unfold validateEndpoint at h
    cases hp : parseURL url with
    | none => rw [hp] at h; exact absurd h (by simp)
    | some p =>
      rw [hp] at h
      dsimp only at h
      by_cases hps : p.protocol = "https:"
      · rw [if_pos hps] at h
        refine ⟨⟨p, rfl, hps⟩, ?_⟩
        simpa [List.contains_iff_exists_mem_beq, beq_iff_eq] using h
      · rw [if_neg hps] at h; exact absurd h (by simp)
  · rintro ⟨⟨p, hp, hps⟩, hm⟩
    have hurl : url = AWS_FEDERATION := by
      simpa [ALLOWED_ENDPOINTS] using hm
    subst hurl
    decide

/-- C5: a warm cache within the 5-minute TTL is returned without a store
read; a failed store read with any previously cached mapping returns
that (possibly stale) mapping and succeeds; a failed store read with a
cold cache throws `ConfigUnavailable`. -/
theorem loadProductConfig_cachePolicy (st : ConfigCache) (now : Nat)
    (s3 : Option ProductConfig) (c : ProductConfig) :
    (st.cache = some c → now - st.time < CONFIG_CACHE_TTL →
      loadProductConfig st now s3 = ⟨Except.ok c, st, false⟩) ∧
    (st.cache = some c → (loadProductConfig st now none).result = Except.ok c) ∧
    (st.cache = none →
      (loadProductConfig st now none).result =
        Except.error "Failed to load product configuration and no cache available") := by
  obtain ⟨cache, time⟩ := st
  refine ⟨?_, ?_, ?_⟩
  · intro hc httl
    cases hc
    simp [loadProductConfig, httl]
  · intro hc
    cases hc
    unfold loadProductConfig
    dsimp only
    split <;> rfl
  · intro hc
    cases hc
    rfl

/-- Witness for C5: concrete instances of all three cache-policy
branches. -/
theorem loadProductConfig_cachePolicy_witness :
    loadProductConfig ⟨some gitlabConfig, 100⟩ 200 none =
      ⟨Except.ok gitlabConfig, ⟨some gitlabConfig, 100⟩, false⟩ ∧
    (loadProductConfig ⟨some gitlabConfig, 0⟩ 400000 none).result = Except.ok gitlabConfig ∧
    (loadProductConfig ⟨none, 0⟩ 0 none).result =
      Except.error "Failed to load product configuration and no cache available" :=
  ⟨(loadProductConfig_cachePolicy ⟨some gitlabConfig, 100⟩ 200 none gitlabConfig).1
      rfl (by decide),
   (loadProductConfig_cachePolicy ⟨some gitlabConfig, 0⟩ 400000 none gitlabConfig).2.1 rfl,
   (loadProductConfig_cachePolicy ⟨none, 0⟩ 0 none gitlabConfig).2.2 rfl⟩

/-- C10: the SSRF-protection branch is unreachable — the validator
accepts the fixed constant endpoint for every input, so the request
never fails with the SSRF error and the one POST it performs targets
exactly the allowlisted URL. -/
theorem ssrf_branch_unreachable (fetchOracle : String → String → FetchResult)
    (sessionData : String) :
    validateEndpoint AWS_FEDERATION = true ∧
    makeAwsFederationRequest fetchOracle sessionData =
      (Except.ok (fetchOracle AWS_FEDERATION (awsFederationBody sessionData)),
       [Event.federationPost AWS_FEDERATION]) ∧
    (makeAwsFederationRequest fetchOracle sessionData).1 ≠
      Except.error "Invalid endpoint - SSRF protection" := by
  have hv : validateEndpoint AWS_FEDERATION = true := by decide
  refine ⟨hv, by simp [makeAwsFederationRequest, hv], by simp [makeAwsFederationRequest, hv]⟩

/-- When the signing endpoint answers 2xx with a token, the token
exchange succeeds after exactly one POST to the allowlisted endpoint. -/
theorem getFederationToken_ok (fetchOracle : String → String → FetchResult)
    (credentials : Credentials) (tok : String)
    (hok : (fetchOracle AWS_FEDERATION (awsFederationBody (sessionJson credentials))).ok = true)
    (htok : (fetchOracle AWS_FEDERATION (awsFederationBody (sessionJson credentials))).signinToken
      = some tok) :
    getFederationToken fetchOracle credentials =
      (Except.ok tok, [Event.federationPost AWS_FEDERATION]) := by
  have hv : validateEndpoint AWS_FEDERATION = true := by decide
  unfold getFederationToken makeAwsFederationRequest
  simp [hv, hok, htok]

/-- C4 counterexample: with every collaborator healthy but the product
key `"unknown"` absent from the catalog, the mint fails with
ProductNotFound *and* its event trace contains the POST to the signing
endpoint — refuting "fails without any call to the signing endpoint". -/
theorem mint_absentProduct_posts_counterexample :
    (generateFederationUrl c4env [] ⟨some gitlabConfig, 0⟩ "alice" "alice" "unknown").result =
      Except.error "Product configuration not found for: unknown" ∧
    Event.federationPost AWS_FEDERATION ∈
      (generateFederationUrl c4env [] ⟨some gitlabConfig, 0⟩ "alice" "alice" "unknown").events := by
  exact ⟨rfl, by decide⟩

/-- C4 (amended): the mint serializes the credentials and POSTs to the
signing endpoint first and resolves the product key only afterwards, so
a mint for a product key absent from the catalog fails with
ProductNotFound only after the signing endpoint has been called; no
artifact is stored. -/
theorem mint_resolvesAfterPost (env : Env) (store : Store) (cfgSt : ConfigCache)
    (userId username productType : String) (credentials : Credentials)
    (tok : String) (cfg : ProductConfig)
    (hsts : env.stsCredentials = some credentials)
    (hok : (env.fetchOracle AWS_FEDERATION (awsFederationBody (sessionJson credentials))).ok
      = true)
    (htok : (env.fetchOracle AWS_FEDERATION
      (awsFederationBody (sessionJson credentials))).signinToken = some tok)
    (hload : (loadProductConfig cfgSt env.nowMs env.s3).result = Except.ok cfg)
    (hlook : lookupProduct cfg productType = none) :
    (generateFederationUrl env store cfgSt userId username productType).result =
      Except.error ("Product configuration not found for: " ++ productType) ∧
    (generateFederationUrl env store cfgSt userId username productType).events =
      [Event.assumeRole, Event.federationPost AWS_FEDERATION] ∧
    (generateFederationUrl env store cfgSt userId username productType).store = store := by
  unfold generateFederationUrl
  rw [hsts]
  dsimp only
  rw [getFederationToken_ok env.fetchOracle credentials tok hok htok]
  dsimp only
  unfold createFederationUrl
  dsimp only
  rw [hload]
  dsimp only
  rw [hlook]
  exact ⟨rfl, rfl, rfl⟩

/-- Witness for C4 (amended): the concrete healthy environment with the
absent key `"unknown"`. -/
theorem mint_resolvesAfterPost_witness :
    (generateFederationUrl c4env [] ⟨some gitlabConfig, 0⟩ "alice" "alice" "unknown").result =
      Except.error ("Product configuration not found for: " ++ "unknown") ∧
    (generateFederationUrl c4env [] ⟨some gitlabConfig, 0⟩ "alice" "alice" "unknown").events =
      [Event.assumeRole, Event.federationPost AWS_FEDERATION] ∧
    (generateFederationUrl c4env [] ⟨some gitlabConfig, 0⟩ "alice" "alice" "unknown").store = [] :=
  mint_resolvesAfterPost c4env [] ⟨some gitlabConfig, 0⟩ "alice" "alice" "unknown"
    ⟨"AKID", "SECRET", "TOKEN"⟩ "abc" gitlabConfig rfl rfl rfl rfl rfl

set_option maxRecDepth 40000 in
/-- C8 counterexample: the minted gitlab URL contains no occurrence of
the literal `SignedToken=abc` — the token parameter the source writes is
named `SigninToken` — refuting the claim as stated. -/
theorem gitlabMint_noSignedTokenParam :
    (createFederationUrl ⟨some gitlabConfig, 0⟩ 0 none "abc" "gitlab" "YourApplication").1 =
      Except.ok gitlabMintedUrl ∧
    countSubstr gitlabMintedUrl "SignedToken=abc" = 0 := by
  exact ⟨rfl, by decide⟩

set_option maxRecDepth 40000 in
/-- C8 (amended): the minted gitlab URL is composed on the signing
endpoint base and carries the form-encoded marketplace deep link as
`Destination`, the signed token as `SigninToken=abc`, and the fixed
issuer label, each exactly once. -/
theorem gitlabMint_url_composition :
    (createFederationUrl ⟨some gitlabConfig, 0⟩ 0 none "abc" "gitlab" "YourApplication").1 =
      Except.ok gitlabMintedUrl ∧
    headEq gitlabMintedUrl "https://signin.aws.amazon.com/federation?" = true ∧
    countSubstr gitlabMintedUrl
      "Destination=https%3A%2F%2Faws.amazon.com%2Fmarketplace%2Fpp%2Fprodview-1" = 1 ∧
    countSubstr gitlabMintedUrl "SigninToken=abc" = 1 ∧
    countSubstr gitlabMintedUrl "Issuer=YourApplication" = 1 := by
  refine ⟨rfl, by decide, by decide, by decide, by decide⟩

/-! ## Handler dispatch lemmas -/

/-- An authenticated GET reduces to the GET branch. -/
theorem handler_get_eq (env : Env) (store : Store) (cfgSt : ConfigCache) (ev : ApiEvent)
    (uid un : String) (hm : ev.httpMethod = "GET") (hs : ev.sub = some uid)
    (hu : ev.username = some un) (hue : uid ≠ "") (hun : un ≠ "") :
    handler env store cfgSt ev =
      handleGet env store cfgSt uid un (extractProduct ev.productParam) := by
  unfold handler handlerCore
  simp [hm, hs, hu, hue, hun]

/-- An authenticated POST on a `/revoke` path reduces to the revoke
branch. -/
theorem handler_revoke_eq (env : Env) (store : Store) (cfgSt : ConfigCache) (ev : ApiEvent)
    (uid un : String) (hm : ev.httpMethod = "POST")
    (hp : endsWithLit ev.path "/revoke" = true) (hs : ev.sub = some uid)
    (hu : ev.username = some un) (hue : uid ≠ "") (hun : un ≠ "") :
    handler env store cfgSt ev = handleRevoke env store cfgSt uid ev.authHeader := by
  unfold handler handlerCore
  simp [hm, hp, hs, hu, hue, hun]

/-- On a cache hit within validity, the GET branch answers 200 from the
stored row, refreshes its `lastAccessed`, and performs no mint. -/
theorem handleGet_hit (env : Env) (store : Store) (cfgSt : ConfigCache)
    (uid un p : String) (item : StoredUrlItem)
    (hget : Store.get store (uid ++ "#" ++ p) = some item)
    (hexp : ¬ item.expirationTime < env.nowMs / 1000) :
    handleGet env store cfgSt uid un p =
      ⟨200, ApiBody.federation ⟨item.federationUrl, item.expirationTime⟩,
        Store.put store (uid ++ "#" ++ p) { item with lastAccessed := env.isoNow },
        cfgSt, [Event.ddbGet (uid ++ "#" ++ p), Event.ddbPut (uid ++ "#" ++ p)]⟩ := by
  unfold handleGet getStoredUrl
  rw [hget]
  simp [hexp]

/-- A successful mint stores the returned artifact under the composite
key. -/
theorem generateFederationUrl_ok_store (env : Env) (store : Store) (cfgSt : ConfigCache)
    (uid un p : String) (r : FederationUrlResponse)
    (h : (generateFederationUrl env store cfgSt uid un p).result = Except.ok r) :
    (generateFederationUrl env store cfgSt uid un p).store =
      Store.put store (uid ++ "#" ++ p)
        ⟨uid ++ "#" ++ p, r.federationUrl, r.expiresAt, un, p, env.isoNow, env.isoNow⟩ := by
  unfold generateFederationUrl at h ⊢
  cases hsts : env.stsCredentials with
  | none => rw [hsts] at h; simp at h
  | some creds =>
    rw [hsts] at h
    dsimp only at h ⊢
    cases htok : (getFederationToken env.fetchOracle creds).1 with
    | error e => rw [htok] at h; simp at h
    | ok signinToken =>
      rw [htok] at h
      dsimp only at h ⊢
      cases hurl : (createFederationUrl cfgSt env.nowMs env.s3 signinToken p env.issuer).1 with
      | error e => rw [hurl] at h; simp at h
      | ok federationUrl =>
        rw [hurl] at h
        dsimp only at h ⊢
        injection h with h
        rw [← h]

/-- Whenever the GET branch answers with a federation body, the table
afterwards holds a row under the composite key carrying that body's URL
and expiry. -/
theorem handleGet_federation_store (env : Env) (store : Store) (cfgSt : ConfigCache)
    (uid un p : String) (r : FederationUrlResponse)
    (h : (handleGet env store cfgSt uid un p).body = ApiBody.federation r) :
    ∃ item : StoredUrlItem,
      Store.get (handleGet env store cfgSt uid un p).store (uid ++ "#" ++ p) = some item ∧
      item.federationUrl = r.federationUrl ∧ item.expirationTime = r.expiresAt := by
  unfold handleGet at h ⊢
  cases hg : getStoredUrl store (env.nowMs / 1000) env.isoNow (uid ++ "#" ++ p) with
  | mk itm store2 events =>
    rw [hg] at h
    cases itm with
    | some storedUrl =>
      dsimp only at h ⊢
      injection h with h
      refine ⟨{ storedUrl with lastAccessed := env.isoNow }, ?_, ?_, ?_⟩
      · -- store2 is the refreshed table of the hit branch of getStoredUrl
        unfold getStoredUrl at hg
        cases hgg : Store.get store (uid ++ "#" ++ p) with
        | none => rw [hgg] at hg; simp at hg
        | some item0 =>
          rw [hgg] at hg
          dsimp only at hg
          by_cases hlt : item0.expirationTime < env.nowMs / 1000
          · rw [if_pos hlt] at hg; injection hg with h1 h2 h3; simp at h1
          · rw [if_neg hlt] at hg
            injection hg with h1 h2 h3
            injection h1 with h1
            subst h1
            rw [← h2]
            exact Store.get_put_self store (uid ++ "#" ++ p) _
      · rw [← h]
      · rw [← h]
    | none =>
      dsimp only at h ⊢
      cases hmint : generateFederationUrl env store2 cfgSt uid un p with
      | mk res store3 cfg3 mevents =>
        rw [hmint] at h
        cases res with
        | error e => dsimp only at h; exact absurd h (by simp)
        | ok urlData =>
          dsimp only at h
          injection h with h
          subst h
          have hres : (generateFederationUrl env store2 cfgSt uid un p).result =
              Except.ok urlData := by rw [hmint]
          have hst := generateFederationUrl_ok_store env store2 cfgSt uid un p urlData hres
          rw [hmint] at hst
          dsimp only at hst
          rw [hst]
          exact ⟨_, Store.get_put_self store2 (uid ++ "#" ++ p) _, rfl, rfl⟩

/-- C6: once a GET has answered 200 with a federation body, a second GET
for the same identity and product, made while the artifact is still
within its validity window, answers 200 with the same `federationUrl`
from the cache and performs no mint — no assume-role call and no POST to
the signing endpoint. -/
theorem getOrMint_cached_second_call (env env2 : Env) (store : Store) (cfgSt : ConfigCache)
    (ev : ApiEvent) (uid un : String) (r : FederationUrlResponse)
    (hm : ev.httpMethod = "GET") (hs : ev.sub = some uid) (hu : ev.username = some un)
    (hue : uid ≠ "") (hun : un ≠ "")
    (h1 : (handler env store cfgSt ev).body = ApiBody.federation r)
    (hvalid : ¬ r.expiresAt < env2.nowMs / 1000) :
    (handler env2 (handler env store cfgSt ev).store
        (handler env store cfgSt ev).cfgSt ev).statusCode = 200 ∧
    (handler env2 (handler env store cfgSt ev).store
        (handler env store cfgSt ev).cfgSt ev).body = ApiBody.federation r ∧
    Event.assumeRole ∉ (handler env2 (handler env store cfgSt ev).store
        (handler env store cfgSt ev).cfgSt ev).events ∧
    ∀ u, Event.federationPost u ∉ (handler env2 (handler env store cfgSt ev).store
        (handler env store cfgSt ev).cfgSt ev).events := by
  have hq1 := handler_get_eq env store cfgSt ev uid un hm hs hu hue hun
  rw [hq1] at h1
  rw [hq1]
  rw [handler_get_eq env2 _ _ ev uid un hm hs hu hue hun]
  obtain ⟨item, hget, hfu, hexp⟩ :=
    handleGet_federation_store env store cfgSt uid un (extractProduct ev.productParam) r h1
  have hne : ¬ item.expirationTime < env2.nowMs / 1000 := by rw [hexp]; exact hvalid
  rw [handleGet_hit env2 _ _ uid un _ item hget hne]
  refine ⟨rfl, ?_, by simp, by intro u; simp⟩
  rw [hfu, hexp]

set_option maxRecDepth 100000 in
/-- Witness for C6: the concrete first mint for alice/gitlab followed by
a second call at the same instant. -/
theorem getOrMint_cached_second_call_witness :
    (handler c4env (handler c4env [] ⟨some gitlabConfig, 0⟩ c6ev).store
        (handler c4env [] ⟨some gitlabConfig, 0⟩ c6ev).cfgSt c6ev).statusCode = 200 ∧
    (handler c4env (handler c4env [] ⟨some gitlabConfig, 0⟩ c6ev).store
        (handler c4env [] ⟨some gitlabConfig, 0⟩ c6ev).cfgSt c6ev).body =
      ApiBody.federation ⟨gitlabMintedUrl, 3300⟩ ∧
    Event.assumeRole ∉ (handler c4env (handler c4env [] ⟨some gitlabConfig, 0⟩ c6ev).store
        (handler c4env [] ⟨some gitlabConfig, 0⟩ c6ev).cfgSt c6ev).events ∧
    ∀ u, Event.federationPost u ∉ (handler c4env (handler c4env [] ⟨some gitlabConfig, 0⟩ c6ev).store
        (handler c4env [] ⟨some gitlabConfig, 0⟩ c6ev).cfgSt c6ev).events :=
  getOrMint_cached_second_call c4env c4env [] ⟨some gitlabConfig, 0⟩ c6ev "alice" "alice"
    ⟨gitlabMintedUrl, 3300⟩ rfl rfl rfl (by decide) (by decide) (by rfl) (by decide)

/-- C1: when the IAM policy write fails during a revoke, the request
fails with a 500 carrying the revocation failure message and the IAM
error detail, the cache purge is never attempted (no DynamoDB delete is
issued), and the table is left exactly as it was. -/
theorem revoke_policyFailure_leavesCache (env : Env) (store : Store) (cfgSt : ConfigCache)
    (ev : ApiEvent) (e uid un : String)
    (hm : ev.httpMethod = "POST") (hp : endsWithLit ev.path "/revoke" = true)
    (hs : ev.sub = some uid) (hu : ev.username = some un)
    (hue : uid ≠ "") (hun : un ≠ "")
    (hiam : env.iam = Except.error e)
    (hrole : extractRoleName env.roleArn ≠ "") :
    (handler env store cfgSt ev).statusCode = 500 ∧
    (handler env store cfgSt ev).body = ApiBody.err "Failed to revoke sessions" (some e) ∧
    (handler env store cfgSt ev).store = store ∧
    ∀ k, Event.ddbDelete k ∉ (handler env store cfgSt ev).events := by
  rw [handler_revoke_eq env store cfgSt ev uid un hm hp hs hu hue hun]
  unfold handleRevoke revokeRoleSessions
  rw [hiam]
  simp [hrole]

/-- Witness for C1: a concrete revoke with a failing IAM write leaves
the one cached row in place and reports the 500. -/
theorem revoke_policyFailure_leavesCache_witness :
    (handler c1env [("alice#gitlab", c2item)] ⟨some gitlabConfig, 0⟩ c1ev).statusCode = 500 ∧
    (handler c1env [("alice#gitlab", c2item)] ⟨some gitlabConfig, 0⟩ c1ev).body =
      ApiBody.err "Failed to revoke sessions" (some "iam down") ∧
    (handler c1env [("alice#gitlab", c2item)] ⟨some gitlabConfig, 0⟩ c1ev).store =
      [("alice#gitlab", c2item)] ∧
    ∀ k, Event.ddbDelete k ∉
      (handler c1env [("alice#gitlab", c2item)] ⟨some gitlabConfig, 0⟩ c1ev).events :=
  revoke_policyFailure_leavesCache c1env [("alice#gitlab", c2item)] ⟨some gitlabConfig, 0⟩
    c1ev "iam down" "alice" "alice" rfl (by decide) rfl rfl (by decide) (by decide) rfl
    (by decide)

/-- C9: a GET whose query string carries no `product` parameter, or an
empty one, behaves exactly — same response, same table, same external
calls — as one with `product=gitlab`. -/
theorem missingProduct_defaults_to_gitlab (env : Env) (store : Store) (cfgSt : ConfigCache)
    (ev : ApiEvent) :
    handler env store cfgSt { ev with httpMethod := "GET", productParam := none } =
      handler env store cfgSt { ev with httpMethod := "GET", productParam := some "gitlab" } ∧
    handler env store cfgSt { ev with httpMethod := "GET", productParam := some "" } =
      handler env store cfgSt { ev with httpMethod := "GET", productParam := some "gitlab" } := by
  exact ⟨rfl, rfl⟩

end MarketplaceFed
